import Mathlib

/-!
Shallow embedding of the constraint-validation engine of the
`spine-validation-ts` repository (packages/spine-validation-ts/src),
together with proofs of the specification claims.

JavaScript runtime values are modelled by `JSVal` (no aliasing: values are
finite trees, matching decoded protobuf messages).  JavaScript numbers that
arise from parsing threshold / range strings are modelled by `JNum` (exact
fractions extended with infinities and NaN); every numeric literal occurring
in the verified properties is exactly representable as an IEEE double, so
exact fraction comparison coincides with the double comparison the source
performs on those inputs.

The options registry (`options-registry.ts`) registers every Spine option
unconditionally at module load, so `getRegisteredOption` never returns
`undefined`; the embedding therefore models option lookup on a descriptor
directly by an `Option`-typed payload (`hasOption` = `Option.isSome`,
`getOption` = the payload).
-/

namespace SpineTS

/-- JavaScript runtime values, as far as the validators inspect them. -/
inductive JSVal where
  | jsUndefined : JSVal
  | jsNull : JSVal
  | bool (b : Bool) : JSVal
  | num (q : ℚ) : JSVal
  | str (s : String) : JSVal
  | arr (elems : List JSVal) : JSVal
  | obj (fields : List (String × JSVal)) : JSVal

/-- JS property access `message[name]`: association-list lookup on objects,
`undefined` on everything else (the validators only read properties of
message objects). -/
def JSVal.getField : JSVal → String → JSVal
  | .obj fs, name =>
    match fs.lookup name with
    | some v => v
    | none => .jsUndefined
  | _, _ => .jsUndefined

/-- JS truthiness of the modelled values (`Boolean(v)`). -/
def JSVal.truthy : JSVal → Bool
  | .jsUndefined => false
  | .jsNull => false
  | .bool b => b
  | .num q => q ≠ 0
  | .str s => s ≠ ""
  | .arr _ => true
  | .obj _ => true

/-- `v !== undefined && v !== null`. -/
def JSVal.defined : JSVal → Bool
  | .jsUndefined => false
  | .jsNull => false
  | _ => true

/-- `Array.isArray(v)`. -/
def JSVal.isArray : JSVal → Bool
  | .arr _ => true
  | _ => false

/-- JS strict equality `===` on the modelled values.  Distinct array/object
literals are never identical references, so `===` on them is `false`; the
`(distinct)` validator is only ever applied to scalar/enum elements. -/
def jsStrictEq : JSVal → JSVal → Bool
  | .jsUndefined, .jsUndefined => true
  | .jsNull, .jsNull => true
  | .bool a, .bool b => a = b
  | .num a, .num b => a = b
  | .str a, .str b => a = b
  | _, _ => false

/-- `String(v)` for the values the validators stringify.  Non-integer
rationals never reach `String(·)` in any verified property, so their
rendering is irrelevant (JS shortest round-trip formatting is not modelled). -/
def jsToString : JSVal → String
  | .jsUndefined => "undefined"
  | .jsNull => "null"
  | .bool b => if b then "true" else "false"
  | .num q => if q.den = 1 then toString q.num else toString q
  | .str s => s
  | .arr _ => ""
  | .obj _ => "[object Object]"

/-- `String(v ?? '')` as used when filling the `value` placeholder. -/
def jsToStringOrEmpty (v : JSVal) : String :=
  match v with
  | .jsUndefined => ""
  | .jsNull => ""
  | _ => jsToString v

/-- JS numbers as produced by `parseInt`/`parseFloat`: NaN, ±Infinity, or a
finite value.  A finite value is kept as an (unnormalized) fraction
`num / den` with `den > 0`; every numeric literal the engine meets is a
decimal and hence exactly representable, so exact fraction comparison
coincides with the IEEE-double comparison the source performs. -/
inductive JNum where
  | nan : JNum
  | negInf : JNum
  | posInf : JNum
  | fin (num : Int) (den : Nat) : JNum
deriving DecidableEq, Repr

/-- `isNaN(x)`. -/
def JNum.isNaN : JNum → Bool
  | .nan => true
  | _ => false

/-- JS `<` (any comparison with NaN is false); finite fractions compare by
cross-multiplication (denominators are positive for every produced value). -/
def JNum.jlt : JNum → JNum → Bool
  | .nan, _ => false
  | _, .nan => false
  | .negInf, .negInf => false
  | .negInf, _ => true
  | _, .negInf => false
  | .posInf, _ => false
  | .fin _ _, .posInf => true
  | .fin a b, .fin c d => a * (d : Int) < c * (b : Int)

/-- JS `<=` (any comparison with NaN is false). -/
def JNum.jle : JNum → JNum → Bool
  | .nan, _ => false
  | _, .nan => false
  | .negInf, _ => true
  | _, .negInf => false
  | _, .posInf => true
  | .posInf, _ => false
  | .fin a b, .fin c d => a * (d : Int) ≤ c * (b : Int)

/-- JS `>`. -/
def JNum.jgt (a b : JNum) : Bool := JNum.jlt b a

/-- JS `>=`. -/
def JNum.jge (a b : JNum) : Bool := JNum.jle b a

/-- The three whitespace characters the tokenizer handles, which also cover
the leading whitespace skipped by `parseInt`/`parseFloat` on every input the
engine meets. -/
def isJsSpace (c : Char) : Bool := c = ' ' ∨ c = '\t' ∨ c = '\n'

/-- Digit run → natural number value, with the count of digits consumed. -/
def takeDigits : List Char → Nat × Nat × List Char
  | c :: cs =>
    if c.isDigit then
      let (v, n, rest) := takeDigits cs
      (c.toNat - '0'.toNat) * 10 ^ n + v |> fun v' => (v', n + 1, rest)
    else (0, 0, c :: cs)
  | [] => (0, 0, [])

/-- JS `parseInt(s, 10)`: skip leading whitespace, optional sign, maximal
run of decimal digits; NaN when no digit is found. -/
def jsParseInt (s : String) : JNum :=
  let cs := s.data.dropWhile isJsSpace
  let (neg, cs) :=
    match cs with
    | '+' :: rest => (false, rest)
    | '-' :: rest => (true, rest)
    | rest => (false, rest)
  let (v, n, _) := takeDigits cs
  if n = 0 then .nan
  else .fin (if neg then -(v : Int) else (v : Int)) 1

/-- The exponent part `e[+-]?digits` of a JS float literal; `none` when the
suffix does not start a valid exponent (JS then ignores it). -/
def parseExponent : List Char → Option Int
  | c :: cs =>
    if c = 'e' ∨ c = 'E' then
      let (esign, cs') :=
        match cs with
        | '+' :: rest => ((1 : Int), rest)
        | '-' :: rest => ((-1 : Int), rest)
        | rest => ((1 : Int), rest)
      let (ev, en, _) := takeDigits cs'
      if en = 0 then none else some (esign * (ev : Int))
    else none
  | [] => none

/-- JS `parseFloat(s)`: skip leading whitespace, optional sign, then the
maximal prefix of the form `Infinity`, `digits[.digits][exp]` or
`.digits[exp]`; NaN when no such prefix exists. -/
def jsParseFloat (s : String) : JNum :=
  let cs := s.data.dropWhile isJsSpace
  let (neg, cs) :=
    match cs with
    | '+' :: rest => (false, rest)
    | '-' :: rest => (true, rest)
    | rest => (false, rest)
  if ['I','n','f','i','n','i','t','y'].isPrefixOf cs then
    if neg then .negInf else .posInf
  else
    let (ip, ipn, rest) := takeDigits cs
    let (fp, fpn, rest') :=
      match rest with
      | '.' :: cs' => takeDigits cs'
      | _ => (0, 0, rest)
    if ipn = 0 ∧ fpn = 0 then .nan
    else
      let e := (parseExponent rest').getD 0
      let mantissa : Nat := ip * 10 ^ fpn + fp
      let num : Int :=
        if 0 ≤ e then (mantissa * 10 ^ e.toNat : Nat) else (mantissa : Int)
      let den : Nat := if 0 ≤ e then 10 ^ fpn else 10 ^ fpn * 10 ^ (-e).toNat
      .fin (if neg then -num else num) den

/-! ## Schema model (protobuf-ES descriptors with Spine option payloads) -/

/-- `ScalarType` of `@bufbuild/protobuf` v2: a numeric TypeScript enum. -/
inductive ScalarType where
  | DOUBLE | FLOAT | INT64 | UINT64 | INT32 | FIXED64 | FIXED32 | BOOL | STRING
  | GROUP | MESSAGE | BYTES | UINT32 | ENUM | SFIXED32 | SFIXED64 | SINT32 | SINT64
deriving DecidableEq, Repr

/-- The numeric value of each `ScalarType` enum member (protobuf wire types). -/
def ScalarType.code : ScalarType → Nat
  | .DOUBLE => 1
  | .FLOAT => 2
  | .INT64 => 3
  | .UINT64 => 4
  | .INT32 => 5
  | .FIXED64 => 6
  | .FIXED32 => 7
  | .BOOL => 8
  | .STRING => 9
  | .GROUP => 10
  | .MESSAGE => 11
  | .BYTES => 12
  | .UINT32 => 13
  | .ENUM => 14
  | .SFIXED32 => 15
  | .SFIXED64 => 16
  | .SINT32 => 17
  | .SINT64 => 18

/-- JS `field.scalar.toString()`: a numeric enum value stringifies to its
decimal digits (e.g. `"9"` for `STRING`), never to the member's name. -/
def ScalarType.jsToStr (st : ScalarType) : String := toString st.code

/-- `PatternOption.modifier` payload (`spine/options.proto`). -/
structure PatternModifier where
  caseInsensitive : Bool := false
  multiline : Bool := false
  dotAll : Bool := false
  unicodeFlag : Bool := false
  partialMatch : Bool := false
deriving DecidableEq, Repr

/-- `PatternOption` payload; `errorMsg = ""` models an absent message. -/
structure PatternOption where
  regex : String
  errorMsg : String := ""
  modifier : Option PatternModifier := none
deriving DecidableEq, Repr

/-- `MinOption` payload. -/
structure MinOption where
  value : String
  exclusive : Bool := false
  errorMsg : String := ""
deriving DecidableEq, Repr

/-- `MaxOption` payload. -/
structure MaxOption where
  value : String
  exclusive : Bool := false
  errorMsg : String := ""
deriving DecidableEq, Repr

/-- `GoesOption` payload; `withField` models the proto field `with`
(a Lean keyword). -/
structure GoesOption where
  withField : String
  errorMsg : String := ""
deriving DecidableEq, Repr

/-- `ChoiceOption` payload. -/
structure ChoiceOption where
  required : Bool := false
  errorMsg : String := ""
deriving DecidableEq, Repr

/-- A protobuf-ES field descriptor with its Spine options, parametric in the
schema type so that `Schema` below can close the recursion.  `hasOption` is
modelled by `Option.isSome` of the corresponding payload; field kinds are the
literal strings protobuf-ES uses (`"scalar" | "message" | "enum" | "list" |
"map"`, and `listKind`/`mapKind` likewise). -/
structure FieldShell (S : Type) where
  name : String
  localName : String
  fieldKind : String
  scalar : Option ScalarType := none
  listKind : Option String := none
  mapKind : Option String := none
  hasMapValue : Bool := false
  message : Option S := none
  required : Option Bool := none
  ifMissingMsg : Option String := none
  pattern : Option PatternOption := none
  minOpt : Option MinOption := none
  maxOpt : Option MaxOption := none
  range : Option String := none
  distinct : Option Bool := none
  validateFlag : Option Bool := none
  ifInvalidMsg : Option String := none
  goes : Option GoesOption := none
deriving Repr

/-- A oneof descriptor with its `(choice)` option. -/
structure OneofDescr where
  name : String
  localName : String
  choice : Option ChoiceOption := none
deriving DecidableEq, Repr

/-- A message schema (`GenMessage`): type name, field and oneof descriptors,
and the message-level `(required_field)` expression if attached. -/
inductive Schema where
  | mk (typeName : String) (fields : List (FieldShell Schema))
       (oneofs : List OneofDescr) (requiredFieldExpr : Option String)

/-- Field descriptors of a concrete schema. -/
abbrev FieldDescr := FieldShell Schema

def Schema.typeName : Schema → String
  | .mk t _ _ _ => t

def Schema.fields : Schema → List FieldDescr
  | .mk _ fs _ _ => fs

def Schema.oneofs : Schema → List OneofDescr
  | .mk _ _ os _ => os

def Schema.requiredFieldExpr : Schema → Option String
  | .mk _ _ _ e => e

/-! ## Violation model -/

/-- `TemplateString` (`spine/validate/error_message.proto`): a format string
plus placeholder values (association list, insertion order preserved). -/
structure TemplateString where
  withPlaceholders : String
  placeholderValue : List (String × String)
deriving DecidableEq, Repr

/-- `ConstraintViolation`: the validators always set `fieldValue` to
`undefined` and the nested `violation` list to `[]`, so those two fields are
omitted from the model. -/
structure ConstraintViolation where
  typeName : String
  fieldPath : List String
  message : TemplateString
  msgFormat : String := ""
  param : List String := []
deriving DecidableEq, Repr

/-! ## Small JS helpers shared by the validators -/

/-- `v === s` for a string literal `s`. -/
def JSVal.strictEqStr (v : JSVal) (s : String) : Bool :=
  match v with
  | .str t => t = s
  | _ => false

/-- `v === q` for a numeric literal `q`. -/
def JSVal.strictEqNum (v : JSVal) (q : ℚ) : Bool :=
  match v with
  | .num p => p = q
  | _ => false

/-- `Object.keys(v).length` for the values the validators meet (objects;
the string case mirrors JS index keys and is unreachable in practice). -/
def JSVal.objKeysLen : JSVal → Nat
  | .obj fs => fs.length
  | .str s => s.length
  | _ => 0

/-- `v.length` of arrays (list fields). -/
def JSVal.arrLen : JSVal → Nat
  | .arr xs => xs.length
  | _ => 0

/-- `String.prototype.trim()`, restricted to the whitespace characters the
engine's inputs contain (space, tab, newline, carriage return). -/
def trimChars (cs : List Char) : List Char :=
  ((cs.dropWhile fun c => isJsSpace c ∨ c = '\r').reverse.dropWhile
    fun c => isJsSpace c ∨ c = '\r').reverse

/-- `s.trim()` on a `String`. -/
def jsTrim (s : String) : String := ⟨trimChars s.data⟩

/-- Scanner for `String.prototype.split(sep)` with a non-empty separator
`s0 :: srest`; `skip` consumes the tail of a separator that was just
matched (structural recursion so that concrete splits reduce in the
kernel). -/
def splitOnAux (s0 : Char) (srest : List Char) :
    List Char → Nat → List Char → List (List Char)
  | [], _, acc => [acc.reverse]
  | c :: cs, skip, acc =>
    if skip > 0 then splitOnAux s0 srest cs (skip - 1) acc
    else if c = s0 ∧ srest.isPrefixOf cs then
      acc.reverse :: splitOnAux s0 srest cs srest.length []
    else
      splitOnAux s0 srest cs 0 (c :: acc)

/-- JS `s.split(sep)` for a non-empty separator string. -/
def jsSplitOnStr (s sep : String) : List String :=
  match sep.data with
  | [] => [s]
  | s0 :: srest => (splitOnAux s0 srest s.data 0 []).map fun cs => ⟨cs⟩

/-- JS `String.prototype.includes` (`s.includes(t)`). -/
def jsIncludes (s t : String) : Bool :=
  if t = "" then true else (jsSplitOnStr s t).length ≠ 1

/-! ## `options/required-field.ts`: the `(required_field)` expression engine -/

namespace RequiredField

/-- `isFieldSet(message, fieldName, schema)` of `required-field.ts`: presence
predicate used by the expression engine; unknown field names yield `false`
(the source logs a warning and returns `false`). -/
def isFieldSet (message : JSVal) (fieldName : String) (schema : Schema) : Bool :=
  match schema.fields.find? (fun f => f.name = fieldName) with
  | none => false
  | some field =>
    let fieldValue := message.getField field.localName
    if field.fieldKind = "scalar" then
      match field.scalar with
      | some scalarType =>
        if scalarType = .STRING ∨ scalarType = .BYTES then
          fieldValue.defined && !fieldValue.strictEqStr ""
        else if scalarType = .BOOL then
          fieldValue.defined
        else
          fieldValue.defined && !fieldValue.strictEqNum 0
      | none => false
    else if field.fieldKind = "message" then
      fieldValue.defined
    else if field.fieldKind = "enum" then
      fieldValue.defined && !fieldValue.strictEqNum 0
    else if field.fieldKind = "list" || field.fieldKind = "map" then
      fieldValue.defined &&
        (if fieldValue.isArray then fieldValue.arrLen > 0 else fieldValue.objKeysLen > 0)
    else
      false

/-- Character-by-character loop of `tokenize`. -/
def tokenizeGo : List Char → String → List String → List String
  | [], current, tokens =>
    if jsTrim current ≠ "" then tokens ++ [jsTrim current] else tokens
  | c :: cs, current, tokens =>
    if c = '(' ∨ c = ')' ∨ c = '|' ∨ c = '&' then
      let tokens' := if jsTrim current ≠ "" then tokens ++ [jsTrim current] else tokens
      tokenizeGo cs "" (tokens' ++ [String.singleton c])
    else if c = ' ' ∨ c = '\t' ∨ c = '\n' then
      let tokens' := if jsTrim current ≠ "" then tokens ++ [jsTrim current] else tokens
      tokenizeGo cs "" tokens'
    else
      tokenizeGo cs (current.push c) tokens

/-- `tokenize(expression)`: split on `(`, `)`, `|`, `&` and whitespace; any
other maximal run of characters becomes a field-name token. -/
def tokenize (expression : String) : List String :=
  tokenizeGo expression.data "" []

/-!
The recursive-descent evaluator of `evaluateExpression`, with the mutable
`index` made explicit: each function returns the evaluation result together
with the index after it.  In the source every parse function leaves `index`
greater than or equal to the value it received; the `max` normalizations
below make that invariant syntactic (they are identities at every reachable
call, see `parse_index_mono`) so that the parse trees are visibly finite.
The atom case consults `env`, which the engine instantiates with
`isFieldSet` for the message under validation.
-/

mutual

/-- `parseOr()` of `evaluateExpression`. -/
def parseOr (ts : List String) (env : String → Bool) (i : Nat) : Bool × Nat :=
  let (r, i1) := parseAnd ts env i
  parseOrLoop ts env (max i i1) r
termination_by 5 * (ts.length - i) + 4
decreasing_by all_goals (simp_wf <;> omega)

/-- The `while (tokens[index] === '|')` loop of `parseOr`. -/
def parseOrLoop (ts : List String) (env : String → Bool) (i : Nat) (acc : Bool) :
    Bool × Nat :=
  if h : i < ts.length then
    if ts[i] = "|" then
      let (r, j) := parseAnd ts env (i + 1)
      parseOrLoop ts env (max (i + 1) j) (acc || r)
    else (acc, i)
  else (acc, i)
termination_by 5 * (ts.length - i) + 3
decreasing_by all_goals (simp_wf <;> omega)

/-- `parseAnd()` of `evaluateExpression`. -/
def parseAnd (ts : List String) (env : String → Bool) (i : Nat) : Bool × Nat :=
  let (r, i1) := parsePrimary ts env i
  parseAndLoop ts env (max i i1) r
termination_by 5 * (ts.length - i) + 2
decreasing_by all_goals (simp_wf <;> omega)

/-- The `while (tokens[index] === '&')` loop of `parseAnd`. -/
def parseAndLoop (ts : List String) (env : String → Bool) (i : Nat) (acc : Bool) :
    Bool × Nat :=
  if h : i < ts.length then
    if ts[i] = "&" then
      let (r, j) := parsePrimary ts env (i + 1)
      parseAndLoop ts env (max (i + 1) j) (acc && r)
    else (acc, i)
  else (acc, i)
termination_by 5 * (ts.length - i) + 1
decreasing_by all_goals (simp_wf <;> omega)

/-- `parsePrimary()` of `evaluateExpression`: parenthesized group, stray
operator/closing-paren (evaluates as an unset field, `false`), or a
field-name atom resolved through `env`. -/
def parsePrimary (ts : List String) (env : String → Bool) (i : Nat) : Bool × Nat :=
  if h : i < ts.length then
    let token := ts[i]
    if token = "(" then
      let (r, j0) := parseOr ts env (i + 1)
      let j := max (i + 1) j0
      if hj : j < ts.length then
        if ts[j] = ")" then (r, j + 1) else (r, j)
      else (r, j)
    else if token = "|" ∨ token = "&" ∨ token = ")" then
      (false, i)
    else
      (env token, i + 1)
  else
    (false, i)
termination_by 5 * (ts.length - i)
decreasing_by all_goals (simp_wf <;> omega)

end

/-- `evaluateExpression(expression, message, schema)`. -/
def evaluateExpression (expression : String) (message : JSVal) (schema : Schema) :
    Bool :=
  (parseOr (tokenize expression) (fun token => isFieldSet message token schema) 0).1

/-- Every parse function returns an index at least as large as the one it
received — the source's `index` never moves backwards — so the `max`
normalizations in the definitions above are identities at every reachable
call and the embedding computes exactly the source's recursion. -/
theorem parse_index_mono (ts : List String) (env : String → Bool) :
    (∀ i, i ≤ (parseOr ts env i).2) ∧
    (∀ i acc, i ≤ (parseOrLoop ts env i acc).2) ∧
    (∀ i, i ≤ (parseAnd ts env i).2) ∧
    (∀ i acc, i ≤ (parseAndLoop ts env i acc).2) ∧
    (∀ i, i ≤ (parsePrimary ts env i).2) := by
  refine parseOr.mutual_induct ts env _ _ _ _ _
    ?_ ?_ ?_ ?_ ?_ ?_ ?_ ?_ ?_ ?_ ?_ ?_ ?_ ?_
  all_goals intros
  all_goals
    (first
      | rw [parseOr.eq_def]
      | rw [parseOrLoop.eq_def]
      | rw [parseAnd.eq_def]
      | rw [parseAndLoop.eq_def]
      | rw [parsePrimary.eq_def])
  all_goals (try ((repeat' split) <;> simp_all))
  all_goals (try ((repeat' split) <;> simp_all))
  all_goals omega

end RequiredField

/-- `v === undefined`. -/
def JSVal.isUndefined : JSVal → Bool
  | .jsUndefined => true
  | _ => false

/-- Coercion of a field value to a JS number for a `<`/`>` comparison against
a parsed numeric threshold.  Every verified property compares actual numbers
(`JSVal.num`); the remaining cases follow `Number(·)` where it is simple and
are unreachable in the verified properties. -/
def jsToNumber : JSVal → JNum
  | .num q => .fin q.num q.den
  | .bool b => .fin (if b then 1 else 0) 1
  | .jsNull => .fin 0 1
  | .str s => if jsTrim s = "" then .fin 0 1 else jsParseFloat s
  | _ => .nan

/-! ## `options/required.ts`: the `(required)` validator -/

namespace Required

/-- `createViolation` of `required.ts`. -/
def createViolation (typeName fieldName : String) (fieldValue : JSVal)
    (violationMessage : String) : ConstraintViolation :=
  { typeName := typeName
    fieldPath := [fieldName]
    message :=
      { withPlaceholders := violationMessage
        placeholderValue :=
          [("field", fieldName), ("value", jsToStringOrEmpty fieldValue)] }
    msgFormat := ""
    param := [] }

/-- The `switch (field.scalar.toString())` of `validateRequiredFields`.
`field.scalar` is a numeric enum, so `toString()` yields decimal digits and
never one of the `'ScalarType.*'` case labels: at runtime every scalar field
takes the `default` branch `isViolated = !fieldValue`. -/
def isViolatedScalar (st : ScalarType) (fieldValue : JSVal) : Bool :=
  let key := st.jsToStr
  if key = "ScalarType.STRING" then
    !fieldValue.truthy || fieldValue.strictEqStr ""
  else if key = "ScalarType.BYTES" then
    !fieldValue.truthy || fieldValue.arrLen = 0
  else if ["ScalarType.INT32", "ScalarType.INT64", "ScalarType.UINT32",
           "ScalarType.UINT64", "ScalarType.SINT32", "ScalarType.SINT64",
           "ScalarType.FIXED32", "ScalarType.FIXED64", "ScalarType.SFIXED32",
           "ScalarType.SFIXED64", "ScalarType.FLOAT",
           "ScalarType.DOUBLE"].contains key then
    !fieldValue.defined
  else if key = "ScalarType.BOOL" then
    !fieldValue.defined
  else
    !fieldValue.truthy

/-- Per-field body of the `validateRequiredFields` loop. -/
def validateRequiredField (typeName : String) (message : JSVal)
    (field : FieldDescr) : List ConstraintViolation :=
  match field.required with
  | none => []
  | some reqVal =>
    if !reqVal then []
    else
      let defaultMsg := "A value must be set."
      let violationMessage :=
        match field.ifMissingMsg with
        | some msg => if msg ≠ "" then msg else defaultMsg
        | none => defaultMsg
      let fieldValue := message.getField field.localName
      let isViolated :=
        if field.fieldKind = "scalar" then
          match field.scalar with
          | some st => isViolatedScalar st fieldValue
          | none => false
        else if field.fieldKind = "message" then
          !fieldValue.truthy
        else if field.fieldKind = "enum" then
          !fieldValue.defined
        else
          false
      let (isViolated, violationMessage) :=
        if field.fieldKind = "list" then
          let iv := !fieldValue.truthy || !fieldValue.isArray || fieldValue.arrLen = 0
          ( iv,
            if iv ∧ ¬jsIncludes violationMessage "at least" then
              "At least one element must be present."
            else violationMessage )
        else (isViolated, violationMessage)
      if isViolated then
        [createViolation typeName field.name fieldValue violationMessage]
      else []

/-- `validateRequiredFields(schema, message, violations)` (violations are
returned instead of appended to a mutable array). -/
def validateRequiredFields (schema : Schema) (message : JSVal) :
    List ConstraintViolation :=
  schema.fields.flatMap (validateRequiredField schema.typeName message)

end Required

/-! ## `options/pattern.ts`: the `(pattern)` validator

The JS regular-expression engine is an external platform facility; it is
abstracted as a parameter `regexTest regex flags value` standing for
`new RegExp(regex, flags).test(value)` (including the `catch` path that
yields `false` on an invalid pattern).  Every statement below either holds
for all `regexTest` or instantiates it on a literal pattern, where
`test` is substring containment. -/

/-- Abstraction of `new RegExp(regex, flags).test(value)`. -/
abbrev RegexTest := String → String → String → Bool

/-- `new RegExp(re).test(v)` for a literal pattern `re` (no metacharacters):
substring containment. -/
def literalRegexTest : RegexTest := fun re _flags v => jsIncludes v re

namespace Pattern

/-- `createViolation` of `pattern.ts`. -/
def createViolation (typeName fieldName : String) (fieldValue : JSVal)
    (violationMessage : String) : ConstraintViolation :=
  { typeName := typeName
    fieldPath := [fieldName]
    message :=
      { withPlaceholders := violationMessage
        placeholderValue :=
          [("field", fieldName), ("value", jsToStringOrEmpty fieldValue)] }
    msgFormat := ""
    param := [] }

/-- `validatePatternValue(value, regex, patternOption)`: builds the flag
string from the modifiers and tests the value (the `partialMatch` branches
of the source are identical). -/
def validatePatternValue (regexTest : RegexTest) (value : JSVal)
    (regex : String) (patternOption : PatternOption) : Bool :=
  match value with
  | .str s =>
    let flags :=
      match patternOption.modifier with
      | some m =>
        (if m.caseInsensitive then "i" else "") ++
        (if m.multiline then "m" else "") ++
        (if m.dotAll then "s" else "") ++
        (if m.unicodeFlag then "u" else "")
      | none => ""
    regexTest regex flags s
  | _ => false

/-- Per-field body of the `validatePatternFields` loop. -/
def validatePatternField (regexTest : RegexTest) (typeName : String)
    (message : JSVal) (field : FieldDescr) : List ConstraintViolation :=
  match field.pattern with
  | none => []
  | some patternValue =>
    let regex := patternValue.regex
    let errorMsg :=
      if patternValue.errorMsg ≠ "" then patternValue.errorMsg
      else "The string must match the regular expression `" ++ regex ++ "`."
    let fieldValue := message.getField field.localName
    if field.fieldKind = "list" then
      match fieldValue with
      | .arr xs =>
        xs.enum.flatMap fun (i, itemValue) =>
          match itemValue with
          | .str _ =>
            if ¬validatePatternValue regexTest itemValue regex patternValue then
              [createViolation typeName (field.name ++ "[" ++ toString i ++ "]")
                itemValue errorMsg]
            else []
          | _ => []
      | _ => []
    else if field.fieldKind = "scalar" ∧ field.scalar = some .STRING then
      if fieldValue.defined ∧ ¬fieldValue.strictEqStr "" then
        if ¬validatePatternValue regexTest fieldValue regex patternValue then
          [createViolation typeName field.name fieldValue errorMsg]
        else []
      else []
    else []

/-- `validatePatternFields(schema, message, violations)`. -/
def validatePatternFields (regexTest : RegexTest) (schema : Schema)
    (message : JSVal) : List ConstraintViolation :=
  schema.fields.flatMap (validatePatternField regexTest schema.typeName message)

end Pattern

/-! ## `options/required-field.ts`: the message-level option validator -/

namespace RequiredField

/-- `createViolation` of `required-field.ts`: message-level, empty field
path, the expression as a placeholder value. -/
def createViolation (typeName expression violationMessage : String) :
    ConstraintViolation :=
  { typeName := typeName
    fieldPath := []
    message :=
      { withPlaceholders := violationMessage
        placeholderValue := [("expression", expression)] }
    msgFormat := ""
    param := [] }

/-- `validateRequiredFieldOption(schema, message, violations)`.  The lookup
of the expression through the schema's options (`getExtension`, or the
`$unknown` fallback that decodes extension number 73902 — both yield the
attached expression string) is modelled by `Schema.requiredFieldExpr`. -/
def validateRequiredFieldOption (schema : Schema) (message : JSVal) :
    List ConstraintViolation :=
  match schema.requiredFieldExpr with
  | none => []
  | some expression =>
    if expression = "" then []
    else if ¬evaluateExpression expression message schema then
      [createViolation schema.typeName expression
        ("At least one of the required field combinations must be satisfied: "
          ++ expression)]
    else []

end RequiredField

/-! ## `options/min-max.ts`: the `(min)` / `(max)` validators -/

namespace MinMax

/-- `isNumericType(scalarType)`. -/
def isNumericType (scalarType : ScalarType) : Bool :=
  scalarType ≠ .STRING && scalarType ≠ .BYTES && scalarType ≠ .BOOL

/-- `parseThreshold(valueStr, scalarType)`. -/
def parseThreshold (valueStr : String) (scalarType : ScalarType) : JNum :=
  if scalarType = .FLOAT ∨ scalarType = .DOUBLE then jsParseFloat valueStr
  else jsParseInt valueStr

/-- `validateMinValue(value, minOption, scalarType)`: `true` when the value
meets the constraint (an unparsable threshold logs and passes). -/
def validateMinValue (value : JSVal) (minOption : MinOption)
    (scalarType : ScalarType) : Bool :=
  let threshold := parseThreshold minOption.value scalarType
  if threshold.isNaN then true
  else if minOption.exclusive then (jsToNumber value).jgt threshold
  else (jsToNumber value).jge threshold

/-- `validateMaxValue(value, maxOption, scalarType)`. -/
def validateMaxValue (value : JSVal) (maxOption : MaxOption)
    (scalarType : ScalarType) : Bool :=
  let threshold := parseThreshold maxOption.value scalarType
  if threshold.isNaN then true
  else if maxOption.exclusive then (jsToNumber value).jlt threshold
  else (jsToNumber value).jle threshold

/-- `getMinErrorMessage(minOption)`. -/
def getMinErrorMessage (minOption : MinOption) : String :=
  if minOption.errorMsg ≠ "" then minOption.errorMsg
  else "The number must be " ++
    (if minOption.exclusive then "greater than" else "at least") ++ " {other}."

/-- `getMaxErrorMessage(maxOption)`. -/
def getMaxErrorMessage (maxOption : MaxOption) : String :=
  if maxOption.errorMsg ≠ "" then maxOption.errorMsg
  else "The number must be " ++
    (if maxOption.exclusive then "less than" else "at most") ++ " {other}."

/-- `createViolation` of `min-max.ts`. -/
def createViolation (typeName : String) (fieldName : List String)
    (fieldValue : JSVal) (errorMessage thresholdValue : String) :
    ConstraintViolation :=
  { typeName := typeName
    fieldPath := fieldName
    message :=
      { withPlaceholders := errorMessage
        placeholderValue :=
          [("value", jsToString fieldValue), ("other", thresholdValue)] }
    msgFormat := ""
    param := [] }

/-- `validateSingleValue(schema, field, value, fieldPath, scalarType,
violations)`. -/
def validateSingleValue (typeName : String) (field : FieldDescr)
    (value : JSVal) (fieldPath : List String) (scalarType : ScalarType) :
    List ConstraintViolation :=
  (match field.minOpt with
   | some minOption =>
     if minOption.value ≠ "" then
       if ¬validateMinValue value minOption scalarType then
         [createViolation typeName fieldPath value
           (getMinErrorMessage minOption) minOption.value]
       else []
     else []
   | none => []) ++
  (match field.maxOpt with
   | some maxOption =>
     if maxOption.value ≠ "" then
       if ¬validateMaxValue value maxOption scalarType then
         [createViolation typeName fieldPath value
           (getMaxErrorMessage maxOption) maxOption.value]
       else []
     else []
   | none => [])

/-- `validateFieldMinMax(schema, message, field, violations)`. -/
def validateFieldMinMax (typeName : String) (message : JSVal)
    (field : FieldDescr) : List ConstraintViolation :=
  let fieldValue := message.getField field.localName
  if field.fieldKind = "list" then
    if field.listKind ≠ some "scalar" then []
    else
      match field.scalar with
      | none => []
      | some scalarType =>
        if ¬isNumericType scalarType then []
        else
          match fieldValue with
          | .arr elems =>
            if elems.length = 0 then []
            else
              elems.enum.flatMap fun (index, element) =>
                validateSingleValue typeName field element
                  [field.name, toString index] scalarType
          | _ => []
  else if field.fieldKind = "scalar" then
    match field.scalar with
    | none => []
    | some scalarType =>
      if ¬isNumericType scalarType then []
      else if ¬fieldValue.defined then []
      else validateSingleValue typeName field fieldValue [field.name] scalarType
  else []

/-- `validateMinMaxFields(schema, message, violations)`. -/
def validateMinMaxFields (schema : Schema) (message : JSVal) :
    List ConstraintViolation :=
  schema.fields.flatMap (validateFieldMinMax schema.typeName message)

end MinMax

/-! ## `options/range.ts`: the `(range)` validator -/

namespace Range

/-- A parsed bracket-notation range (`ParsedRange` of `range.ts`). -/
structure ParsedRange where
  min : JNum
  max : JNum
  minInclusive : Bool
  maxInclusive : Bool
deriving DecidableEq, Repr

/-- `isNumericType(scalarType)` (duplicated in `range.ts`). -/
def isNumericType (scalarType : ScalarType) : Bool :=
  scalarType ≠ .STRING && scalarType ≠ .BYTES && scalarType ≠ .BOOL

/-- `createViolation` of `range.ts`. -/
def createViolation (typeName : String) (fieldName : List String)
    (fieldValue : JSVal) (rangeStr : String) : ConstraintViolation :=
  { typeName := typeName
    fieldPath := fieldName
    message :=
      { withPlaceholders := "The number must be in range " ++ rangeStr ++ "."
        placeholderValue :=
          [("value", jsToString fieldValue), ("range", rangeStr)] }
    msgFormat := ""
    param := [] }

/-- `parseRange(rangeStr, scalarType)`: `none` models the `null` returned on
every malformed input (too short, wrong brackets, missing `..`, NaN bound,
min > max); the source logs a warning in each of those branches. -/
def parseRange (rangeStr : String) (scalarType : ScalarType) :
    Option ParsedRange :=
  let chars := (jsTrim rangeStr).data
  if chars.length < 5 then none
  else
    let firstChar := chars.headD ' '
    let lastChar := chars.getLastD ' '
    if ¬((firstChar = '[' ∨ firstChar = '(') ∧ (lastChar = ')' ∨ lastChar = ']'))
    then none
    else
      let minInclusive := firstChar = '['
      let maxInclusive := lastChar = ']'
      let middle := (chars.drop 1).dropLast
      let parts := splitOnAux '.' ['.'] middle 0 []
      if parts.length ≠ 2 then none
      else
        let minStr : String := ⟨parts.getD 0 []⟩
        let maxStr : String := ⟨parts.getD 1 []⟩
        let min :=
          if scalarType = .FLOAT ∨ scalarType = .DOUBLE then jsParseFloat minStr
          else jsParseInt minStr
        let max :=
          if scalarType = .FLOAT ∨ scalarType = .DOUBLE then jsParseFloat maxStr
          else jsParseInt maxStr
        if min.isNaN ∨ max.isNaN then none
        else if min.jgt max then none
        else some { min := min, max := max,
                    minInclusive := minInclusive, maxInclusive := maxInclusive }

/-- `validateRangeValue(value, range)`. -/
def validateRangeValue (value : JSVal) (range : ParsedRange) : Bool :=
  let v := jsToNumber value
  if range.minInclusive then
    if v.jlt range.min then false
    else if range.maxInclusive then ¬v.jgt range.max else ¬v.jge range.max
  else
    if v.jle range.min then false
    else if range.maxInclusive then ¬v.jgt range.max else ¬v.jge range.max

/-- `validateFieldRange(schema, message, field, violations)`. -/
def validateFieldRange (typeName : String) (message : JSVal)
    (field : FieldDescr) : List ConstraintViolation :=
  let fieldValue := message.getField field.localName
  if field.fieldKind = "list" then
    if field.listKind ≠ some "scalar" then []
    else
      match field.scalar with
      | none => []
      | some scalarType =>
        if ¬isNumericType scalarType then []
        else
          match field.range with
          | none => []
          | some rangeStr =>
            if rangeStr = "" then []
            else
              match parseRange rangeStr scalarType with
              | none => []
              | some range =>
                match fieldValue with
                | .arr elems =>
                  if elems.length = 0 then []
                  else
                    elems.enum.flatMap fun (index, element) =>
                      if ¬validateRangeValue element range then
                        [createViolation typeName [field.name, toString index]
                          element rangeStr]
                      else []
                | _ => []
  else if field.fieldKind = "scalar" then
    match field.scalar with
    | none => []
    | some scalarType =>
      if ¬isNumericType scalarType then []
      else
        match field.range with
        | none => []
        | some rangeStr =>
          if rangeStr = "" then []
          else
            match parseRange rangeStr scalarType with
            | none => []
            | some range =>
              if ¬fieldValue.defined then []
              else if ¬validateRangeValue fieldValue range then
                [createViolation typeName [field.name] fieldValue rangeStr]
              else []
  else []

/-- `validateRangeFields(schema, message, violations)`. -/
def validateRangeFields (schema : Schema) (message : JSVal) :
    List ConstraintViolation :=
  schema.fields.flatMap (validateFieldRange schema.typeName message)

end Range

/-! ## `options/distinct.ts`: the `(distinct)` validator -/

namespace Distinct

/-- `createViolation` of `distinct.ts`. -/
def createViolation (typeName : String) (fieldName : List String)
    (duplicateValue : JSVal) (firstIndex duplicateIndex : Nat) :
    ConstraintViolation :=
  { typeName := typeName
    fieldPath := fieldName
    message :=
      { withPlaceholders := "Duplicate value found in repeated field. Value {value} at index {duplicate_index} is a duplicate of the value at index {first_index}."
        placeholderValue :=
          [("value", jsToString duplicateValue),
           ("first_index", toString firstIndex),
           ("duplicate_index", toString duplicateIndex)] }
    msgFormat := ""
    param := [] }

/-- `valuesAreEqual(val1, val2)`: strict equality. -/
def valuesAreEqual (val1 val2 : JSVal) : Bool := jsStrictEq val1 val2

/-- The `fieldValue.forEach` loop of `validateFieldDistinct`: `seen` is the
insertion-ordered `Map` of values already encountered, scanned linearly for
an equal earlier value. -/
def distinctLoop (typeName fieldName : String) :
    List JSVal → Nat → List (JSVal × Nat) → List ConstraintViolation
  | [], _, _ => []
  | element :: rest, index, seen =>
    match seen.find? (fun p => valuesAreEqual element p.1) with
    | some (_, firstIndex) =>
      createViolation typeName [fieldName, toString index] element firstIndex
          index ::
        distinctLoop typeName fieldName rest (index + 1) seen
    | none =>
      distinctLoop typeName fieldName rest (index + 1) (seen ++ [(element, index)])

/-- `validateFieldDistinct(schema, message, field, violations)`. -/
def validateFieldDistinct (typeName : String) (message : JSVal)
    (field : FieldDescr) : List ConstraintViolation :=
  if field.fieldKind ≠ "list" then []
  else
    match field.distinct with
    | none => []
    | some distinctValue =>
      if distinctValue ≠ true then []
      else
        match message.getField field.localName with
        | .arr elems =>
          if elems.length ≤ 1 then []
          else distinctLoop typeName field.name elems 0 []
        | _ => []

/-- `validateDistinctFields(schema, message, violations)`. -/
def validateDistinctFields (schema : Schema) (message : JSVal) :
    List ConstraintViolation :=
  schema.fields.flatMap (validateFieldDistinct schema.typeName message)

end Distinct

/-! ## `options/goes.ts`: the `(goes)` dependency validator -/

namespace Goes

/-- `isFieldSet(value)` of `goes.ts`: presence by value alone (note that
`false` counts as set here, unlike the truthiness check of `required.ts`). -/
def isFieldSet : JSVal → Bool
  | .jsUndefined => false
  | .jsNull => false
  | .str s => s ≠ ""
  | .num q => q ≠ 0
  | .bool _ => true
  | .arr _ => true
  | .obj _ => true

/-- `createViolation` of `goes.ts`. -/
def createViolation (typeName fieldName requiredFieldName : String)
    (fieldValue : JSVal) (customErrorMsg : String) : ConstraintViolation :=
  let errorMessage :=
    if customErrorMsg ≠ "" then customErrorMsg
    else "The field `" ++ fieldName ++ "` can only be set when the field `" ++
      requiredFieldName ++ "` is defined."
  { typeName := typeName
    fieldPath := [fieldName]
    message :=
      { withPlaceholders := errorMessage
        placeholderValue :=
          [("value", if ¬fieldValue.isUndefined then jsToString fieldValue else "")] }
    msgFormat := ""
    param := [] }

/-- `validateFieldGoes(schema, message, field, violations)`. -/
def validateFieldGoes (schema : Schema) (message : JSVal)
    (field : FieldDescr) : List ConstraintViolation :=
  match field.goes with
  | none => []
  | some goesOption =>
    let requiredFieldName := goesOption.withField
    if requiredFieldName = "" then []
    else
      let fieldValue := message.getField field.localName
      if ¬isFieldSet fieldValue then []
      else
        match schema.fields.find? (fun f => f.name = requiredFieldName) with
        | none =>
          [createViolation schema.typeName field.name requiredFieldName
            fieldValue
            ("Field `" ++ field.name ++ "` references non-existent field `" ++
              requiredFieldName ++ "` in (goes).with option.")]
        | some requiredField =>
          let requiredFieldValue := message.getField requiredField.localName
          if ¬isFieldSet requiredFieldValue then
            [createViolation schema.typeName field.name requiredFieldName
              fieldValue goesOption.errorMsg]
          else []

/-- `validateGoesFields(schema, message, violations)`. -/
def validateGoesFields (schema : Schema) (message : JSVal) :
    List ConstraintViolation :=
  schema.fields.flatMap (validateFieldGoes schema message)

end Goes

/-! ## `options/choice.ts`: the `(choice)` oneof validator -/

namespace Choice

/-- `createViolation` of `choice.ts`. -/
def createViolation (typeName oneofName : String) (customErrorMsg : String) :
    ConstraintViolation :=
  let errorMsg :=
    if customErrorMsg ≠ "" then customErrorMsg
    else "The oneof group '" ++ oneofName ++ "' must have one of its fields set."
  { typeName := typeName
    fieldPath := [oneofName]
    message :=
      { withPlaceholders := errorMsg
        placeholderValue := [("group.path", oneofName), ("parent.type", typeName)] }
    msgFormat := ""
    param := [] }

/-- `isOneofSet(message, oneof)`: the protobuf-ES oneof property is set when
its `case` member is defined. -/
def isOneofSet (message : JSVal) (oneof : OneofDescr) : Bool :=
  let oneofValue := message.getField oneof.localName
  oneofValue.defined && ¬(oneofValue.getField "case").isUndefined

/-- `validateOneofChoice(schema, message, oneof, violations)`. -/
def validateOneofChoice (typeName : String) (message : JSVal)
    (oneof : OneofDescr) : List ConstraintViolation :=
  match oneof.choice with
  | none => []
  | some choiceOption =>
    if choiceOption.required = true then
      if ¬isOneofSet message oneof then
        [createViolation typeName oneof.name choiceOption.errorMsg]
      else []
    else []

/-- `validateChoiceFields(schema, message, violations)`. -/
def validateChoiceFields (schema : Schema) (message : JSVal) :
    List ConstraintViolation :=
  schema.oneofs.flatMap (validateOneofChoice schema.typeName message)

end Choice

/-! ## `options/validate.ts` and `validation.ts`: recursive validation and
the orchestrator -/

/-- A nested schema referenced by a field descriptor is structurally smaller
than the schema owning the field (schemas are finite trees in the model;
self-referential schema graphs are the open question of the spec and are not
representable). -/
theorem sizeOf_nested_lt (s : Schema) (f : FieldDescr) (hf : f ∈ s.fields)
    (ns : Schema) (hm : f.message = some ns) : sizeOf ns < sizeOf s := by
  rcases s with ⟨t, fs, os, e⟩
  have h1 : sizeOf f < sizeOf fs := List.sizeOf_lt_of_mem hf
  have h2 : sizeOf ns < sizeOf f := by
    rcases f with ⟨n, ln, fk, sc, lk, mk, hmv, msg, rq, im, pt, mn, mx, rg, ds, vf, iv, gs⟩
    simp only [FieldShell.message] at hm
    subst hm
    simp
    omega
  have h3 : sizeOf fs < sizeOf (Schema.mk t fs os e) := by
    simp
    omega
  omega

namespace Validate

/-- `createViolation` of `validate.ts`. -/
def createViolation (typeName : String) (fieldName : List String)
    (errorMessage : String) (fieldValue : JSVal) : ConstraintViolation :=
  { typeName := typeName
    fieldPath := fieldName
    message :=
      { withPlaceholders := errorMessage
        placeholderValue :=
          [("value", if fieldValue.truthy then jsToString fieldValue else "")] }
    msgFormat := ""
    param := [] }

/-- `getErrorMessage(ifInvalidOption)`: the `(if_invalid)` message when
present and non-empty, the default otherwise. -/
def getErrorMessage (ifInvalidMsg : Option String) : String :=
  match ifInvalidMsg with
  | some msg => if msg ≠ "" then msg else "Nested message validation failed."
  | none => "Nested message validation failed."

end Validate

/--
`validate(schema, message)` of `validation.ts`: the orchestrator, running the
nine validators in their fixed order and concatenating their violations (the
source appends to one shared array).  The `(validate)` recursion of
`validate.ts` is inlined here so that the recursion is visibly on the schema
tree; `validate_unfold` below restates this definition through the named
helpers `Validate.validateNestedFields` / `validateFieldValidate` /
`validateNestedMessage`, which mirror the source functions one-to-one.
The `attach` only records each field's membership for termination.
-/
def validate (regexTest : RegexTest) (schema : Schema) (message : JSVal) :
    List ConstraintViolation :=
  Required.validateRequiredFields schema message ++
  Pattern.validatePatternFields regexTest schema message ++
  RequiredField.validateRequiredFieldOption schema message ++
  MinMax.validateMinMaxFields schema message ++
  Range.validateRangeFields schema message ++
  Distinct.validateDistinctFields schema message ++
  (schema.fields.attach.flatMap fun fp =>
    match fp.1.validateFlag with
    | none => []
    | some validateValue =>
      if validateValue ≠ true then []
      else
        let ifInvalidOption := fp.1.ifInvalidMsg
        let fieldValue := message.getField fp.1.localName
        if fp.1.fieldKind = "message" then
          if ¬fieldValue.truthy then []
          else
            match hm : fp.1.message with
            | none => []
            | some nestedSchema =>
              let nestedViolations := validate regexTest nestedSchema fieldValue
              if nestedViolations.length > 0 then
                Validate.createViolation schema.typeName [fp.1.name]
                    (Validate.getErrorMessage ifInvalidOption) fieldValue ::
                  nestedViolations.map fun nv =>
                    { nv with fieldPath := [fp.1.name] ++ nv.fieldPath }
              else []
        else if fp.1.fieldKind = "list" then
          match fieldValue with
          | .arr elems =>
            if elems.length = 0 then []
            else if fp.1.listKind ≠ some "message" then []
            else
              match hm : fp.1.message with
              | none => []
              | some nestedSchema =>
                elems.enum.flatMap fun (index, element) =>
                  if element.truthy then
                    let nestedViolations := validate regexTest nestedSchema element
                    if nestedViolations.length > 0 then
                      Validate.createViolation schema.typeName
                          [fp.1.name, toString index]
                          (Validate.getErrorMessage ifInvalidOption) element ::
                        nestedViolations.map fun nv =>
                          { nv with
                            fieldPath := [fp.1.name, toString index] ++ nv.fieldPath }
                    else []
                  else []
          | _ => []
        else if fp.1.fieldKind = "map" then
          if ¬fieldValue.truthy then []
          else
            match fieldValue with
            | .obj entries =>
              if entries.length = 0 then []
              else if ¬fp.1.hasMapValue then []
              else if fp.1.mapKind ≠ some "message" then []
              else
                match hm : fp.1.message with
                | none => []
                | some nestedSchema =>
                  entries.flatMap fun (key, value) =>
                    if value.truthy then
                      let nestedViolations := validate regexTest nestedSchema value
                      if nestedViolations.length > 0 then
                        Validate.createViolation schema.typeName
                            [fp.1.name, key]
                            (Validate.getErrorMessage ifInvalidOption) value ::
                          nestedViolations.map fun nv =>
                            { nv with fieldPath := [fp.1.name, key] ++ nv.fieldPath }
                      else []
                    else []
            | _ => []
        else []) ++
  Goes.validateGoesFields schema message ++
  Choice.validateChoiceFields schema message
termination_by sizeOf schema
decreasing_by
  all_goals exact sizeOf_nested_lt schema fp.1 fp.2 nestedSchema hm

namespace Validate

/-- `validateNestedMessage(parentTypeName, fieldPath, nestedMessage,
nestedSchema, ifInvalidOption, violations)` of `validate.ts`: runs the
orchestrator on the nested message; on a non-empty result emits one
parent-level violation at `fieldPath` and re-emits every nested violation
with `fieldPath` prepended to its path. -/
def validateNestedMessage (regexTest : RegexTest) (parentTypeName : String)
    (fieldPath : List String) (nestedMessage : JSVal) (nestedSchema : Schema)
    (ifInvalidMsg : Option String) : List ConstraintViolation :=
  let nestedViolations := validate regexTest nestedSchema nestedMessage
  if nestedViolations.length > 0 then
    createViolation parentTypeName fieldPath (getErrorMessage ifInvalidMsg)
        nestedMessage ::
      nestedViolations.map fun nv =>
        { nv with fieldPath := fieldPath ++ nv.fieldPath }
  else []

/-- `validateFieldValidate(schema, message, field, violations)` of
`validate.ts`: recursive validation of a `(validate) = true` field of
message, list-of-message or map-of-message kind. -/
def validateFieldValidate (regexTest : RegexTest) (schema : Schema)
    (message : JSVal) (field : FieldDescr) : List ConstraintViolation :=
  match field.validateFlag with
  | none => []
  | some validateValue =>
    if validateValue ≠ true then []
    else
      let ifInvalidOption := field.ifInvalidMsg
      let fieldValue := message.getField field.localName
      if field.fieldKind = "message" then
        if ¬fieldValue.truthy then []
        else
          match hm : field.message with
          | none => []
          | some nestedSchema =>
            validateNestedMessage regexTest schema.typeName [field.name]
              fieldValue nestedSchema ifInvalidOption
      else if field.fieldKind = "list" then
        match fieldValue with
        | .arr elems =>
          if elems.length = 0 then []
          else if field.listKind ≠ some "message" then []
          else
            match hm : field.message with
            | none => []
            | some nestedSchema =>
              elems.enum.flatMap fun (index, element) =>
                if element.truthy then
                  validateNestedMessage regexTest schema.typeName
                    [field.name, toString index] element nestedSchema
                    ifInvalidOption
                else []
        | _ => []
      else if field.fieldKind = "map" then
        if ¬fieldValue.truthy then []
        else
          match fieldValue with
          | .obj entries =>
            if entries.length = 0 then []
            else if ¬field.hasMapValue then []
            else if field.mapKind ≠ some "message" then []
            else
              match hm : field.message with
              | none => []
              | some nestedSchema =>
                entries.flatMap fun (key, value) =>
                  if value.truthy then
                    validateNestedMessage regexTest schema.typeName
                      [field.name, key] value nestedSchema ifInvalidOption
                  else []
          | _ => []
      else []

/-- `validateNestedFields(schema, message, violations)` of `validate.ts`. -/
def validateNestedFields (regexTest : RegexTest) (schema : Schema)
    (message : JSVal) : List ConstraintViolation :=
  schema.fields.flatMap (validateFieldValidate regexTest schema message)

end Validate

/-- `flatMap` ignores the membership proofs `attach` introduces. -/
theorem flatMap_attach_fst {A B : Type} (l : List A) (f : A → List B) :
    (l.attach.flatMap fun x => f x.1) = l.flatMap f := by
  induction l with
  | nil => rfl
  | cons a as ih =>
    simp only [List.attach_cons, List.flatMap_cons, List.flatMap_map]
    rw [← ih]

/-- The orchestrator restated through the named helper functions: `validate`
is exactly the nine validators of `validation.ts` run in their fixed order
Required, Pattern, FieldCombination, Min/Max, Range, Distinct, Recurse,
Dependency, Choice. -/
theorem validate_unfold (regexTest : RegexTest) (schema : Schema)
    (message : JSVal) :
    validate regexTest schema message =
      Required.validateRequiredFields schema message ++
      Pattern.validatePatternFields regexTest schema message ++
      RequiredField.validateRequiredFieldOption schema message ++
      MinMax.validateMinMaxFields schema message ++
      Range.validateRangeFields schema message ++
      Distinct.validateDistinctFields schema message ++
      Validate.validateNestedFields regexTest schema message ++
      Goes.validateGoesFields schema message ++
      Choice.validateChoiceFields schema message := by
  rw [validate.eq_def, Validate.validateNestedFields,
    ← flatMap_attach_fst schema.fields
      (Validate.validateFieldValidate regexTest schema message)]
  simp only [Validate.validateFieldValidate, Validate.validateNestedMessage]

/-! ## Concrete schemas and messages used by the verified properties -/

/-- A string scalar field with `name = localName`, as the test fixtures use. -/
def strField (n : String) : FieldDescr :=
  { name := n, localName := n, fieldKind := "scalar", scalar := some .STRING }

/-- `PersonName` of the `(required_field)` documentation: three string
fields under the expression
`"given_name | (honorific_prefix & family_name)"`. -/
def personNameSchema : Schema :=
  .mk "spine.test.PersonName"
    [strField "given_name", strField "honorific_prefix", strField "family_name"]
    [] (some "given_name | (honorific_prefix & family_name)")

/-- A `PersonName` message with the three field values given. -/
def personNameMsg (g p f : String) : JSVal :=
  .obj [("given_name", .str g), ("honorific_prefix", .str p),
        ("family_name", .str f)]

/-- The `User` message of §8's scenario: `option (required_field) =
"id | email"` over a numeric `id` and a string `email`. -/
def userIdsSchema : Schema :=
  .mk "spine.test.User"
    [{ name := "id", localName := "id", fieldKind := "scalar",
       scalar := some .INT32 },
     strField "email"]
    [] (some "id | email")

/-- The scenario message: `id = 0`, `email = ""`. -/
def userIdsMsg : JSVal := .obj [("id", .num 0), ("email", .str "")]

/-! ## Claims -/

/-- C2.  The required-field expression engine gives `|` lower precedence than
`&`, evaluates left-associatively and honors parentheses: for
`"given_name | (honorific_prefix & family_name)"`, evaluation returns `true`
when only `given_name` is set, `true` when both `honorific_prefix` and
`family_name` are set, and `false` when `given_name` is unset and exactly
one of `honorific_prefix` / `family_name` is set. -/
theorem C2_expression_precedence :
    RequiredField.evaluateExpression
        "given_name | (honorific_prefix & family_name)"
        (personNameMsg "John" "" "") personNameSchema = true ∧
    RequiredField.evaluateExpression
        "given_name | (honorific_prefix & family_name)"
        (personNameMsg "" "Dr" "Who") personNameSchema = true ∧
    RequiredField.evaluateExpression
        "given_name | (honorific_prefix & family_name)"
        (personNameMsg "" "Dr" "") personNameSchema = false ∧
    RequiredField.evaluateExpression
        "given_name | (honorific_prefix & family_name)"
        (personNameMsg "" "" "Who") personNameSchema = false := by
  have ht : RequiredField.tokenize "given_name | (honorific_prefix & family_name)" =
      ["given_name", "|", "(", "honorific_prefix", "&", "family_name", ")"] := rfl
  refine ⟨?_, ?_, ?_, ?_⟩ <;>
    (simp only [RequiredField.evaluateExpression, ht]
     simp [RequiredField.parseOr, RequiredField.parseOrLoop,
       RequiredField.parseAnd, RequiredField.parseAndLoop,
       RequiredField.parsePrimary, RequiredField.isFieldSet, personNameSchema,
       personNameMsg, strField, Schema.fields, JSVal.getField, JSVal.defined,
       JSVal.strictEqStr] <;> decide)

/-- C3.  When the message-level `(required_field)` expression evaluates to
false, `validate` yields exactly one violation; it is message-level (empty
field path) and carries the original expression text both as the
`expression` placeholder value and inside the message template: for
`"id | email"` with `id = 0` and `email = ""`, the full validator output is
that single violation. -/
theorem C3_message_level_violation :
    validate literalRegexTest userIdsSchema userIdsMsg =
      [{ typeName := "spine.test.User"
         fieldPath := []
         message :=
           { withPlaceholders := "At least one of the required field combinations must be satisfied: id | email"
             placeholderValue := [("expression", "id | email")] }
         msgFormat := ""
         param := [] }] ∧
    jsIncludes
      "At least one of the required field combinations must be satisfied: id | email"
      "id | email" = true := by
  have ht : RequiredField.tokenize "id | email" = ["id", "|", "email"] := rfl
  refine ⟨?_, by decide⟩
  simp only [validate_unfold, Validate.validateNestedFields,
    Validate.validateFieldValidate, Validate.validateNestedMessage,
    RequiredField.validateRequiredFieldOption, RequiredField.evaluateExpression,
    userIdsSchema, userIdsMsg, strField, Schema.fields, Schema.requiredFieldExpr,
    ht]
  simp [RequiredField.parseOr, RequiredField.parseOrLoop,
    RequiredField.parseAnd, RequiredField.parseAndLoop,
    RequiredField.parsePrimary, RequiredField.isFieldSet, userIdsSchema,
    strField, Schema.fields, JSVal.getField, JSVal.defined, JSVal.strictEqStr,
    JSVal.strictEqNum, RequiredField.createViolation, Schema.typeName] <;>
    decide

/-- C10.  The required-field expression evaluator is total over arbitrary
expression strings: evaluation always returns a boolean; an unknown field
name resolves as an unset field (`false`); an operator or closing
parenthesis in atom position evaluates as an unset field without consuming
input; and representative malformed inputs (empty, whitespace-only, lone or
repeated operators, unbalanced parentheses, a trailing operator) all
evaluate without failure, the malformed positions contributing `false`. -/
theorem C10_expression_engine_total :
    (∀ (expression : String) (message : JSVal) (schema : Schema),
        RequiredField.evaluateExpression expression message schema = true ∨
        RequiredField.evaluateExpression expression message schema = false) ∧
    (∀ (message : JSVal) (fieldName : String) (schema : Schema),
        schema.fields.find? (fun f => f.name = fieldName) = none →
        RequiredField.isFieldSet message fieldName schema = false) ∧
    (∀ (ts : List String) (env : String → Bool) (i : Nat) (t : String),
        ts[i]? = some t → (t = "|" ∨ t = "&" ∨ t = ")") →
        RequiredField.parsePrimary ts env i = (false, i)) ∧
    (∀ (message : JSVal) (schema : Schema),
        RequiredField.evaluateExpression "" message schema = false ∧
        RequiredField.evaluateExpression " \t\n" message schema = false ∧
        RequiredField.evaluateExpression "|" message schema = false ∧
        RequiredField.evaluateExpression "&&&" message schema = false ∧
        RequiredField.evaluateExpression "(((" message schema = false ∧
        RequiredField.evaluateExpression ")" message schema = false ∧
        RequiredField.evaluateExpression "given_name &" message schema = false) := by
  refine ⟨?_, ?_, ?_, ?_⟩
  · intro e m s
    cases h : RequiredField.evaluateExpression e m s
    · right; rfl
    · left; rfl
  · intro m fieldName s h
    simp [RequiredField.isFieldSet, h]
  · intro ts env i t ht hop
    have hlt : i < ts.length := by
      by_contra hge
      simp [List.getElem?_eq_none (by omega : ts.length ≤ i)] at ht
    have hti : ts[i] = t := by
      have := List.getElem?_eq_getElem hlt
      rw [ht] at this
      exact (Option.some.inj this).symm
    rw [RequiredField.parsePrimary]
    rcases hop with h1 | h1 | h1 <;> simp [hlt, hti, h1]
  · intro m s
    refine ⟨?_, ?_, ?_, ?_, ?_, ?_, ?_⟩ <;>
      (simp only [RequiredField.evaluateExpression,
        show RequiredField.tokenize "" = [] from rfl,
        show RequiredField.tokenize " \t\n" = [] from rfl,
        show RequiredField.tokenize "|" = ["|"] from rfl,
        show RequiredField.tokenize "&&&" = ["&", "&", "&"] from rfl,
        show RequiredField.tokenize "(((" = ["(", "(", "("] from rfl,
        show RequiredField.tokenize ")" = [")"] from rfl,
        show RequiredField.tokenize "given_name &" = ["given_name", "&"] from rfl]
       simp [RequiredField.parseOr, RequiredField.parseOrLoop,
         RequiredField.parseAnd, RequiredField.parseAndLoop,
         RequiredField.parsePrimary])

/-- Witness for C10 at concrete inputs. -/
theorem C10_expression_engine_total_witness :
    (RequiredField.evaluateExpression "id" (.obj []) (.mk "t" [] [] none) = true ∨
     RequiredField.evaluateExpression "id" (.obj []) (.mk "t" [] [] none) = false) ∧
    RequiredField.isFieldSet (.obj []) "nope" (.mk "t" [] [] none) = false ∧
    RequiredField.parsePrimary [")"] (fun _ => true) 0 = (false, 0) ∧
    RequiredField.evaluateExpression "" (.obj []) (.mk "t" [] [] none) = false :=
  ⟨C10_expression_engine_total.1 "id" (.obj []) (.mk "t" [] [] none),
   C10_expression_engine_total.2.1 (.obj []) "nope" (.mk "t" [] [] none) (by rfl),
   C10_expression_engine_total.2.2.1 [")"] (fun _ => true) 0 ")" (by rfl)
     (Or.inr (Or.inr rfl)),
   (C10_expression_engine_total.2.2.2 (.obj []) (.mk "t" [] [] none)).1⟩

/-- An `int32` field `hour` with `(range) = "[0..24)"`. -/
def hourField : FieldDescr :=
  { name := "hour", localName := "hour", fieldKind := "scalar",
    scalar := some .INT32, range := some "[0..24)" }

/-- A `double` field `angle` with `(range) = "(0.0..180.0]"`. -/
def angleField : FieldDescr :=
  { name := "angle", localName := "angle", fieldKind := "scalar",
    scalar := some .DOUBLE, range := some "(0.0..180.0]" }

set_option maxRecDepth 10000 in
set_option maxHeartbeats 1000000 in
/-- C4.  Range validation has independently inclusive/exclusive endpoints
per bracket: under `"[0..24)"` value `0` passes and value `24` fails; under
`"(0.0..180.0]"` value `0.0` fails and value `180.0` passes. -/
theorem C4_range_bracket_inclusivity :
    Range.validateFieldRange "spine.test.Hours" (.obj [("hour", .num 0)])
      hourField = [] ∧
    Range.validateFieldRange "spine.test.Hours" (.obj [("hour", .num 24)])
      hourField =
      [Range.createViolation "spine.test.Hours" ["hour"] (.num 24) "[0..24)"] ∧
    Range.validateFieldRange "spine.test.Geo" (.obj [("angle", .num 0)])
      angleField =
      [Range.createViolation "spine.test.Geo" ["angle"] (.num 0) "(0.0..180.0]"] ∧
    Range.validateFieldRange "spine.test.Geo" (.obj [("angle", .num 180)])
      angleField = [] := by
  refine ⟨by decide, ?_, ?_, by decide⟩ <;> decide

/-- C8.  Malformed range strings fail open: every malformed category —
too-short input, missing or wrong brackets, missing `..` separator,
non-numeric (NaN) bound, min greater than max — makes `parseRange` return
`none`, and whenever `parseRange` returns `none` the range validator emits
no violation for the field, whatever the field's value. -/
theorem C8_malformed_range_fails_open :
    (∀ (rangeStr : String) (scalarType : ScalarType),
      (let cs := (jsTrim rangeStr).data
       let parts := splitOnAux '.' ['.'] ((cs.drop 1).dropLast) 0 []
       let pmin := if scalarType = .FLOAT ∨ scalarType = .DOUBLE then
           jsParseFloat ⟨parts.getD 0 []⟩ else jsParseInt ⟨parts.getD 0 []⟩
       let pmax := if scalarType = .FLOAT ∨ scalarType = .DOUBLE then
           jsParseFloat ⟨parts.getD 1 []⟩ else jsParseInt ⟨parts.getD 1 []⟩
       cs.length < 5 ∨
       ¬((cs.headD ' ' = '[' ∨ cs.headD ' ' = '(') ∧
         (cs.getLastD ' ' = ')' ∨ cs.getLastD ' ' = ']')) ∨
       parts.length ≠ 2 ∨
       pmin.isNaN = true ∨ pmax.isNaN = true ∨ pmin.jgt pmax = true) →
      Range.parseRange rangeStr scalarType = none) ∧
    (∀ (rangeStr : String) (scalarType : ScalarType) (typeName : String)
       (message : JSVal) (field : FieldDescr),
      field.range = some rangeStr →
      field.scalar = some scalarType →
      Range.parseRange rangeStr scalarType = none →
      Range.validateFieldRange typeName message field = []) := by
  constructor
  · intro rangeStr st h
    simp only at h
    simp only [Range.parseRange]
    rcases h with h | h | h | h | h | h <;>
      (repeat' split) <;> simp_all
  · intro rangeStr st tn msg field hr hs hp
    simp only [Range.validateFieldRange, hr, hs, hp]
    (repeat' split) <;> simp_all

/-- A field carrying the inverted range `"[5..1]"`. -/
def badRangeField : FieldDescr :=
  { name := "x", localName := "x", fieldKind := "scalar",
    scalar := some .INT32, range := some "[5..1]" }

set_option maxRecDepth 10000 in
/-- Witness for C8: the inverted range `"[5..1]"` parses to `none` and the
validator accepts the out-of-any-range value `100` for such a field. -/
theorem C8_malformed_range_fails_open_witness :
    Range.parseRange "[5..1]" .INT32 = none ∧
    Range.validateFieldRange "spine.test.Bad" (.obj [("x", .num 100)])
      badRangeField = [] :=
  ⟨C8_malformed_range_fails_open.1 "[5..1]" .INT32 (by decide),
   C8_malformed_range_fails_open.2 "[5..1]" .INT32 "spine.test.Bad"
     (.obj [("x", .num 100)]) badRangeField (by rfl) (by rfl)
     (C8_malformed_range_fails_open.1 "[5..1]" .INT32 (by decide))⟩

/-- A repeated `int32` field `ids` flagged `(distinct) = true`. -/
def idsField : FieldDescr :=
  { name := "ids", localName := "ids", fieldKind := "list",
    listKind := some "scalar", scalar := some .INT32, distinct := some true }

/-- C7.  The Distinct validator emits one violation per later duplicate
occurrence, not per duplicate pair: `[1,2,1,3,2,4]` yields exactly the two
violations at indices 2 and 4, each with path `[fieldName, duplicateIndex]`
and placeholders carrying the duplicate value, the first-occurrence index
and the duplicate's index. -/
theorem C7_distinct_per_occurrence :
    Distinct.validateFieldDistinct "spine.test.Nums"
      (.obj [("ids", .arr [.num 1, .num 2, .num 1, .num 3, .num 2, .num 4])])
      idsField =
    [{ typeName := "spine.test.Nums"
       fieldPath := ["ids", "2"]
       message :=
         { withPlaceholders := "Duplicate value found in repeated field. Value {value} at index {duplicate_index} is a duplicate of the value at index {first_index}."
           placeholderValue :=
             [("value", "1"), ("first_index", "0"), ("duplicate_index", "2")] }
       msgFormat := ""
       param := [] },
     { typeName := "spine.test.Nums"
       fieldPath := ["ids", "4"]
       message :=
         { withPlaceholders := "Duplicate value found in repeated field. Value {value} at index {duplicate_index} is a duplicate of the value at index {first_index}."
           placeholderValue :=
             [("value", "2"), ("first_index", "1"), ("duplicate_index", "4")] }
       msgFormat := ""
       param := [] }] := by
  decide

/-- A repeated string field `emails` with `(pattern).regex = "@"`. -/
def emailsField : FieldDescr :=
  { name := "emails", localName := "emails", fieldKind := "list",
    listKind := some "scalar", scalar := some .STRING,
    pattern := some { regex := "@" } }

/-- A singular string field `nickname` with `(pattern).regex = "@"`. -/
def nicknameField : FieldDescr :=
  { name := "nickname", localName := "nickname", fieldKind := "scalar",
    scalar := some .STRING, pattern := some { regex := "@" } }

/-- C9 counterexample.  An empty-string ELEMENT of a list-of-string field is
not exempt from pattern validation: with regex `"@"` (which does not match
`""`; `test` is substring containment for this literal pattern), the element
`""` produces a pattern violation, contradicting the claim that an empty
string never does. -/
theorem C9_empty_list_element_flagged :
    Pattern.validatePatternField literalRegexTest "spine.test.Contact"
      (.obj [("emails", .arr [.str ""])]) emailsField =
    [{ typeName := "spine.test.Contact"
       fieldPath := ["emails[0]"]
       message :=
         { withPlaceholders := "The string must match the regular expression `@`."
           placeholderValue := [("field", "emails[0]"), ("value", "")] }
       msgFormat := ""
       param := [] }] := by
  decide

/-- C9 (amended).  Pattern validation exempts the empty string only for
singular string scalar fields: for every regex matcher, pattern option and
message, a string scalar field whose value is `""` yields no pattern
violation; an empty-string element of a list-of-string field is validated
against the regex and yields a violation when the regex rejects `""`. -/
theorem C9_empty_string_exempt_scalar_only :
    (∀ (regexTest : RegexTest) (typeName : String) (message : JSVal)
       (field : FieldDescr) (popt : PatternOption),
       field.pattern = some popt →
       field.fieldKind = "scalar" →
       field.scalar = some .STRING →
       message.getField field.localName = .str "" →
       Pattern.validatePatternField regexTest typeName message field = []) ∧
    Pattern.validatePatternField literalRegexTest "spine.test.Contact"
      (.obj [("emails", .arr [.str ""])]) emailsField ≠ [] := by
  constructor
  · intro regexTest typeName message field popt hp hfk hsc hval
    simp [Pattern.validatePatternField, hp, hfk, hsc, hval, JSVal.strictEqStr,
      JSVal.defined]
  · decide

/-- Witness for C9 (amended) at a concrete scalar field with value `""`. -/
theorem C9_empty_string_exempt_scalar_only_witness :
    Pattern.validatePatternField literalRegexTest "spine.test.Profile"
      (.obj [("nickname", .str "")]) nicknameField = [] :=
  C9_empty_string_exempt_scalar_only.1 literalRegexTest "spine.test.Profile"
    (.obj [("nickname", .str "")]) nicknameField { regex := "@" }
    (by rfl) (by rfl) (by rfl) (by rfl)

/-- A `bool` field `flag` flagged `(required) = true`. -/
def flagField : FieldDescr :=
  { name := "flag", localName := "flag", fieldKind := "scalar",
    scalar := some .BOOL, required := some true }

/-- Schema owning only `flag`. -/
def flagSchema : Schema := .mk "spine.test.Flag" [flagField] [] none

/-- An `int32` field `count` flagged `(required) = true` and
`(min).value = "1"`. -/
def countField : FieldDescr :=
  { name := "count", localName := "count", fieldKind := "scalar",
    scalar := some .INT32, required := some true,
    minOpt := some { value := "1" } }

/-- Schema owning only `count`. -/
def countSchema : Schema := .mk "spine.test.Counter" [countField] [] none

/-- C1.  Runtime presence behavior of the `(required)` validator.  A numeric
scalar flagged `(required) = true` and `(min).value = "1"` does get both a
Required and a Min violation at value `0` (the claim's numeric half).  But a
bool field flagged `(required) = true` ALSO gets a Required violation at
`false`: the scalar switch compares `field.scalar.toString()` — decimal
digits of a numeric enum — against labels like `'ScalarType.BOOL'`, never
matches, and falls to the default truthiness check `!fieldValue`, which
flags `false`.  This contradicts the claim's (and the spec's, and the dead
`case 'ScalarType.BOOL':` branch's) intent that booleans always count as
set. -/
theorem C1_required_runtime_behavior :
    Required.validateRequiredFields countSchema (.obj [("count", .num 0)]) =
      [Required.createViolation "spine.test.Counter" "count" (.num 0)
        "A value must be set."] ∧
    MinMax.validateMinMaxFields countSchema (.obj [("count", .num 0)]) =
      [MinMax.createViolation "spine.test.Counter" ["count"] (.num 0)
        "The number must be at least {other}." "1"] ∧
    Required.validateRequiredFields flagSchema (.obj [("flag", .bool false)]) =
      [Required.createViolation "spine.test.Flag" "flag" (.bool false)
        "A value must be set."] := by
  refine ⟨by decide, by decide, by decide⟩

/-- `Address` with a `(required)` string field `city`. -/
def addressSchema : Schema :=
  .mk "spine.test.Address"
    [{ name := "city", localName := "city", fieldKind := "scalar",
       scalar := some .STRING, required := some true }] [] none

/-- `Person` with a nested `address` field flagged `(validate) = true`. -/
def personSchema : Schema :=
  .mk "spine.test.Person"
    [{ name := "address", localName := "address", fieldKind := "message",
       message := some addressSchema, validateFlag := some true }] [] none

/-- A `Person` whose `address.city` is empty (invalid nested message). -/
def personMsg : JSVal := .obj [("address", .obj [("city", .str "")])]

/-- `Member` with a `(required)` string field `name`. -/
def memberSchema : Schema :=
  .mk "spine.test.Member"
    [{ name := "name", localName := "name", fieldKind := "scalar",
       scalar := some .STRING, required := some true }] [] none

/-- `Team` with a repeated `members` field of `Member` messages flagged
`(validate) = true`. -/
def teamSchema : Schema :=
  .mk "spine.test.Team"
    [{ name := "members", localName := "members", fieldKind := "list",
       listKind := some "message", message := some memberSchema,
       validateFlag := some true }] [] none

/-- A `Team` whose element 1 is invalid (empty `name`). -/
def teamMsg : JSVal :=
  .obj [("members", .arr [.obj [("name", .str "Ada")],
                          .obj [("name", .str "")]])]

/-- The violation `(required)` produces for an empty `city`. -/
def cityViolation : ConstraintViolation :=
  { typeName := "spine.test.Address"
    fieldPath := ["city"]
    message :=
      { withPlaceholders := "A value must be set."
        placeholderValue := [("field", "city"), ("value", "")] }
    msgFormat := ""
    param := [] }

/-- C5.  Recursive validation composes paths: whenever the nested run of the
orchestrator returns a non-empty violation list, `validateNestedMessage`
emits exactly one parent-level violation at the field's path followed by
every nested violation re-emitted with that path prepended; concretely, a
nested violation at `[city]` under field `address` surfaces at
`[address, city]` next to one parent violation at `[address]`, and one at
`[name]` under element 1 of repeated field `members` surfaces at
`[members, 1, name]` next to one parent violation at `[members, 1]`. -/
theorem C5_recursive_path_composition :
    (∀ (regexTest : RegexTest) (parentTypeName : String)
       (fieldPath : List String) (nestedMessage : JSVal)
       (nestedSchema : Schema) (ifInvalidMsg : Option String)
       (vs : List ConstraintViolation),
       validate regexTest nestedSchema nestedMessage = vs → vs ≠ [] →
       Validate.validateNestedMessage regexTest parentTypeName fieldPath
           nestedMessage nestedSchema ifInvalidMsg =
         Validate.createViolation parentTypeName fieldPath
             (Validate.getErrorMessage ifInvalidMsg) nestedMessage ::
           vs.map fun nv => { nv with fieldPath := fieldPath ++ nv.fieldPath }) ∧
    validate literalRegexTest personSchema personMsg =
      [{ typeName := "spine.test.Person"
         fieldPath := ["address"]
         message :=
           { withPlaceholders := "Nested message validation failed."
             placeholderValue := [("value", "[object Object]")] }
         msgFormat := ""
         param := [] },
       { typeName := "spine.test.Address"
         fieldPath := ["address", "city"]
         message :=
           { withPlaceholders := "A value must be set."
             placeholderValue := [("field", "city"), ("value", "")] }
         msgFormat := ""
         param := [] }] ∧
    validate literalRegexTest teamSchema teamMsg =
      [{ typeName := "spine.test.Team"
         fieldPath := ["members", "1"]
         message :=
           { withPlaceholders := "Nested message validation failed."
             placeholderValue := [("value", "[object Object]")] }
         msgFormat := ""
         param := [] },
       { typeName := "spine.test.Member"
         fieldPath := ["members", "1", "name"]
         message :=
           { withPlaceholders := "A value must be set."
             placeholderValue := [("field", "name"), ("value", "")] }
         msgFormat := ""
         param := [] }] := by
  refine ⟨?_, ?_, ?_⟩
  · intro regexTest parentTypeName fieldPath nestedMessage nestedSchema
      ifInvalidMsg vs hvs hne
    simp only [Validate.validateNestedMessage, hvs]
    rw [if_pos]
    exact List.length_pos.mpr hne
  · simp [validate_unfold, Validate.validateNestedFields,
      Validate.validateFieldValidate, Validate.validateNestedMessage,
      personSchema, addressSchema, personMsg, Schema.fields]
    decide
  · simp [validate_unfold, Validate.validateNestedFields,
      Validate.validateFieldValidate, Validate.validateNestedMessage,
      teamSchema, memberSchema, teamMsg, Schema.fields]
    decide

/-- Witness for C5's general part at the `Person`/`Address` instance. -/
theorem C5_recursive_path_composition_witness :
    Validate.validateNestedMessage literalRegexTest "spine.test.Person"
        ["address"] (.obj [("city", .str "")]) addressSchema none =
      Validate.createViolation "spine.test.Person" ["address"]
          (Validate.getErrorMessage none) (.obj [("city", .str "")]) ::
        [cityViolation].map
          (fun nv => { nv with fieldPath := ["address"] ++ nv.fieldPath }) :=
  C5_recursive_path_composition.1 literalRegexTest "spine.test.Person"
    ["address"] (.obj [("city", .str "")]) addressSchema none [cityViolation]
    (by simp [validate_unfold, Validate.validateNestedFields,
          Validate.validateFieldValidate, Validate.validateNestedMessage,
          addressSchema, cityViolation, Schema.fields]
        decide)
    (by decide)

/-- `Payment` with a oneof `method` flagged `(choice).required = true`. -/
def paymentSchema : Schema :=
  .mk "spine.test.Payment" []
    [{ name := "method", localName := "method",
       choice := some { required := true } }] none

/-- C6.  The orchestrator runs every validator in the fixed order Required,
Pattern, FieldCombination, Min/Max, Range, Distinct, Recurse, Dependency,
Choice on every call; in particular a oneof flagged
`(choice).required = true` with no active member contributes its violation
to the result of `validate`. -/
theorem C6_orchestrator_order_and_choice :
    (∀ (regexTest : RegexTest) (schema : Schema) (message : JSVal),
       validate regexTest schema message =
         Required.validateRequiredFields schema message ++
         Pattern.validatePatternFields regexTest schema message ++
         RequiredField.validateRequiredFieldOption schema message ++
         MinMax.validateMinMaxFields schema message ++
         Range.validateRangeFields schema message ++
         Distinct.validateDistinctFields schema message ++
         Validate.validateNestedFields regexTest schema message ++
         Goes.validateGoesFields schema message ++
         Choice.validateChoiceFields schema message) ∧
    validate literalRegexTest paymentSchema (.obj []) =
      [{ typeName := "spine.test.Payment"
         fieldPath := ["method"]
         message :=
           { withPlaceholders := "The oneof group 'method' must have one of its fields set."
             placeholderValue :=
               [("group.path", "method"), ("parent.type", "spine.test.Payment")] }
         msgFormat := ""
         param := [] }] := by
  refine ⟨validate_unfold, ?_⟩
  simp [validate_unfold, Validate.validateNestedFields,
    Validate.validateFieldValidate, Validate.validateNestedMessage,
    paymentSchema, Schema.fields, Schema.oneofs]
  decide

end SpineTS
